import Mathlib

set_option maxRecDepth 4000

/-!
Verification of the Luau CodeGen `CodeAllocator` (CodeGen/src/CodeAllocator.cpp).

The allocator is embedded shallowly:

* `size_t` values and pointers are modelled as `Nat` (a null pointer is `0`);
  none of the quantities manipulated by the allocator can overflow for any
  configuration the constructor accepts and any request the capacity guard
  admits, so the arithmetic is the mathematical one.
* The platform surface (`allocatePages`, i.e. `mmap`/`VirtualAlloc`) and the
  client's unwind-info callback pair are modelled as an environment `Env` of
  pure oracles: `allocPages` is indexed by the number of blocks owned so far
  (one call is made per new block), and `createBlockUnwindInfo` is indexed by
  the index of the block it is invoked for and receives the block base address,
  returning the handle (`none` models a null return) together with the number
  of bytes of unwind data written, exactly like the C++ out-parameter.
* Block memory is a total function `Nat → Nat` from addresses to byte values;
  `memcpy` becomes `memcpyN`.
* `kPageSize` is 4096 (the constant used by the Windows path of the source and
  assumed by all concrete scenarios of the specification).
* `kMaxUnwindDataSize` is declared in the (not included) header
  `CodeAllocator.h`; it is kept as a configuration field so that theorems are
  parametric in it, and the concrete value 256 fixed by the specification's
  scenarios is used for all concrete instances.
* Fresh-allocator state (`initState`) models the class member initializers:
  no blocks, no unwind infos, `blockPos = blockEnd = nullptr`.
-/

/-- Host page size; the source fixes 4096 on Windows and every concrete
scenario of the specification assumes 4096. -/
def kPageSize : Nat := 4096

/-- `alignToPageSize` from CodeAllocator.cpp:
`(size + kPageSize - 1) & ~(kPageSize - 1)`, written for `Nat` as clearing the
low bits by subtracting the remainder. -/
def alignToPageSize (size : Nat) : Nat :=
  (size + kPageSize - 1) - (size + kPageSize - 1) % kPageSize

/-- The 16-byte round-up `(x + 15) & ~15` used for `alignedDataSize` and for
rounding the unwind-info size. -/
def align16 (x : Nat) : Nat :=
  (x + 15) - (x + 15) % 16

/-- Constructor parameters of `CodeAllocator` plus whether the unwind callback
pair (`createBlockUnwindInfo`/`destroyBlockUnwindInfo`) is installed — the
specification installs both or neither. `kMaxUnwindDataSize` lives in the
class header, which is not part of the sources; it is carried here as a
parameter (the specification fixes it at 256). -/
structure Config where
  blockSize : Nat
  maxTotalSize : Nat
  kMaxUnwindDataSize : Nat
  hasUnwindHook : Bool

/-- The environment: the OS page allocator and the client unwind callback,
as pure oracles indexed by the block index they are invoked for. -/
structure Env where
  allocPages : Nat → Option Nat
  createBlockUnwindInfo : Nat → Nat → Option Nat × Nat

/-- Mutable state of a `CodeAllocator`: the owned block base addresses in
allocation order, the stored unwind-info handles, the bump cursor and its
sentinel, and the byte contents of memory. -/
structure AllocState where
  blocks : List Nat
  unwindInfos : List Nat
  blockPos : Nat
  blockEnd : Nat
  mem : Nat → Nat

/-- The out-parameters of a successful `CodeAllocator::allocate` call. -/
structure AllocResult where
  result : Nat
  resultSize : Nat
  resultCodeStart : Nat
deriving DecidableEq

/-- A fresh `CodeAllocator`: no blocks, no unwind infos, null cursor. -/
def initState : AllocState :=
  { blocks := [], unwindInfos := [], blockPos := 0, blockEnd := 0, mem := fun _ => 0 }

/-- `CodeAllocator::allocateNewBlock`. Returns the C++ `bool` result, the
value left in the `unwindInfoSize` out-parameter, and the state after the
call.  Note that the cursor is moved and the block recorded *before* the
unwind callback is consulted, exactly as in the source. -/
def allocateNewBlock (cfg : Config) (env : Env) (s : AllocState) :
    Bool × Nat × AllocState :=
  if (s.blocks.length + 1) * cfg.blockSize > cfg.maxTotalSize then
    (false, 0, s)
  else
    match env.allocPages s.blocks.length with
    | none => (false, 0, s)
    | some block =>
      let s1 : AllocState :=
        { s with
          blockPos := block
          blockEnd := block + cfg.blockSize
          blocks := s.blocks ++ [block] }
      if cfg.hasUnwindHook then
        let r := env.createBlockUnwindInfo s.blocks.length block
        let unwindInfoSize := align16 r.2
        match r.1 with
        | none => (false, unwindInfoSize, s1)
        | some info =>
          (true, unwindInfoSize, { s1 with unwindInfos := s1.unwindInfos ++ [info] })
      else
        (true, 0, s1)

/-- `memcpy(dst, src, n)` on the byte-addressed memory model. -/
def memcpyN (m : Nat → Nat) (dst : Nat) (src : Nat → Nat) (n : Nat) : Nat → Nat :=
  fun a => if dst ≤ a ∧ a < dst + n then src (a - dst) else m a

/-- The block-reservation step of `allocate` (lines 117–126 of the source):
if the request does not fit in the current block, call `allocateNewBlock`;
otherwise keep the state and report `unwindInfoSize = 0`. -/
def reserveStep (cfg : Config) (env : Env) (s : AllocState) (totalSize : Nat) :
    Bool × Nat × AllocState :=
  if totalSize > s.blockEnd - s.blockPos then
    allocateNewBlock cfg env s
  else
    (true, 0, s)

/-- `CodeAllocator::allocate`.  Success returns `some` of the three
out-parameters `(result, resultSize, resultCodeStart)`; failure returns
`none` together with whatever state the failing path left behind. -/
def allocate (cfg : Config) (env : Env) (s : AllocState)
    (data : Nat → Nat) (dataSize : Nat) (code : Nat → Nat) (codeSize : Nat) :
    Option AllocResult × AllocState :=
  let alignedDataSize := align16 dataSize
  let totalSize := alignedDataSize + codeSize
  if totalSize > cfg.blockSize - cfg.kMaxUnwindDataSize then
    (none, s)
  else
    match reserveStep cfg env s totalSize with
    | (false, _, s1) => (none, s1)
    | (true, unwindInfoSize, s1) =>
      let dataOffset := unwindInfoSize + alignedDataSize - dataSize
      let codeOffset := unwindInfoSize + alignedDataSize
      let m1 := if dataSize ≠ 0 then memcpyN s1.mem (s1.blockPos + dataOffset) data dataSize else s1.mem
      let m2 := if codeSize ≠ 0 then memcpyN m1 (s1.blockPos + codeOffset) code codeSize else m1
      let pageSize := alignToPageSize (unwindInfoSize + totalSize)
      (some { result := s1.blockPos + unwindInfoSize
              resultSize := totalSize
              resultCodeStart := s1.blockPos + codeOffset },
        { s1 with mem := m2, blockPos := s1.blockPos + pageSize })

/-- One `allocate` call described by its four data arguments. -/
structure Request where
  data : Nat → Nat
  dataSize : Nat
  code : Nat → Nat
  codeSize : Nat

/-- State transformer of one request. -/
def stepReq (cfg : Config) (env : Env) (s : AllocState) (r : Request) : AllocState :=
  (allocate cfg env s r.data r.dataSize r.code r.codeSize).2

/-- The allocator state after a sequence of `allocate` calls starting from a
fresh allocator. -/
def runAllocs (cfg : Config) (env : Env) (rs : List Request) : AllocState :=
  rs.foldl (stepReq cfg env) initState

/-- One request applied to a state paired with the outcomes so far. -/
def stepTrace (cfg : Config) (env : Env) (acc : AllocState × List (Option AllocResult))
    (r : Request) : AllocState × List (Option AllocResult) :=
  let out := allocate cfg env acc.1 r.data r.dataSize r.code r.codeSize
  (out.2, acc.2 ++ [out.1])

/-- Like `runAllocs` but also collects the outcome of every call, in order. -/
def runTrace (cfg : Config) (env : Env) (rs : List Request) :
    AllocState × List (Option AllocResult) :=
  rs.foldl (stepTrace cfg env) (initState, [])

/-- Events performed by `CodeAllocator::~CodeAllocator`. -/
inductive TeardownEvent where
  | destroyUnwind : Nat → TeardownEvent
  | freeBlock : Nat → Nat → TeardownEvent
deriving DecidableEq

/-- The sequence of calls made by the destructor: if the destroy callback is
installed, `destroyBlockUnwindInfo` on every stored handle in order, then
`freePages` on every block in order. -/
def destructorTrace (cfg : Config) (s : AllocState) : List TeardownEvent :=
  (if cfg.hasUnwindHook then s.unwindInfos.map TeardownEvent.destroyUnwind else []) ++
    s.blocks.map (fun b => TeardownEvent.freeBlock b cfg.blockSize)

/-- The handles passed to the destroy callback, in call order. -/
def destroyedHandles (t : List TeardownEvent) : List Nat :=
  t.filterMap fun e =>
    match e with
    | TeardownEvent.destroyUnwind h => some h
    | TeardownEvent.freeBlock _ _ => none

/-! ### Arithmetic facts about the two round-up operations -/

theorem align16_ge (x : Nat) : x ≤ align16 x := by
  unfold align16; omega

theorem align16_lt (x : Nat) : align16 x < x + 16 := by
  unfold align16; omega

theorem align16_mod (x : Nat) : align16 x % 16 = 0 := by
  unfold align16; omega

theorem alignToPageSize_ge (x : Nat) : x ≤ alignToPageSize x := by
  unfold alignToPageSize kPageSize; omega

theorem alignToPageSize_mod (x : Nat) : alignToPageSize x % kPageSize = 0 := by
  unfold alignToPageSize kPageSize; omega

theorem alignToPageSize_le_of_le {x y : Nat} (h : x ≤ y) (hy : y % kPageSize = 0) :
    alignToPageSize x ≤ y := by
  unfold alignToPageSize kPageSize at *; omega

/-! ### Concrete configurations used by the specification's scenarios -/

/-- The scenario configuration: `blockSize = 4 * 4096`, `maxTotalSize = 16 * 4096`,
`kMaxUnwindDataSize = 256`, no unwind hook. -/
def cfgT : Config :=
  { blockSize := 16384, maxTotalSize := 65536, kMaxUnwindDataSize := 256, hasUnwindHook := false }

/-- The scenario configuration with the unwind hook pair installed. -/
def cfgH : Config :=
  { blockSize := 16384, maxTotalSize := 65536, kMaxUnwindDataSize := 256, hasUnwindHook := true }

/-- A well-behaved platform: block `n` is reserved at page-aligned address
`(n + 1) * 16384`; the unwind callback succeeds writing 0 bytes. -/
def envT : Env :=
  { allocPages := fun n => some ((n + 1) * 16384)
    createBlockUnwindInfo := fun _ _ => (some 1, 0) }

/-- A platform whose unwind-create callback always returns a null handle. -/
def envHfail : Env :=
  { allocPages := fun n => some ((n + 1) * 16384)
    createBlockUnwindInfo := fun _ _ => (none, 0) }

/-- `allocate(dataSize = 0, codeSize = 4096)`, the request of scenario S4. -/
def req4096 : Request :=
  { data := fun _ => 0, dataSize := 0, code := fun _ => 0, codeSize := 4096 }

/-- `allocate(dataSize = 0, codeSize = 16)`, a minimal nonempty request. -/
def req16 : Request :=
  { data := fun _ => 0, dataSize := 0, code := fun _ => 0, codeSize := 16 }

/-- S1's request: no data, 17 bytes of `0x90` code. -/
def reqS1 : Request :=
  { data := fun _ => 0, dataSize := 0, code := fun _ => 144, codeSize := 17 }

/-! ### C10: a both-empty allocation on a fresh allocator -/

/-- C10: `allocate(data, 0, code, 0)` on a fresh allocator (null cursor, no
blocks) succeeds with `result = null`, `resultSize = 0`,
`resultCodeStart = null`, reserves no block, copies nothing, and leaves the
allocator state unchanged. -/
theorem c10_empty_allocation_on_fresh (cfg : Config) (env : Env) (data code : Nat → Nat) :
    allocate cfg env initState data 0 code 0 =
      (some { result := 0, resultSize := 0, resultCodeStart := 0 }, initState) := by
  unfold allocate reserveStep
  simp [align16, initState, alignToPageSize, kPageSize]

/-! ### C8: the oversize guard fails with no state change -/

/-- C8: whenever `roundUp16 dataSize + codeSize > blockSize - kMaxUnwindDataSize`
(with the constructor's precondition `kMaxUnwindDataSize < blockSize`), the
call fails immediately and returns the state it was given, regardless of the
current block's remaining capacity. -/
theorem c8_oversize_guard (cfg : Config) (env : Env) (s : AllocState)
    (data code : Nat → Nat) (dataSize codeSize : Nat)
    (hwf : cfg.kMaxUnwindDataSize < cfg.blockSize)
    (hover : cfg.blockSize - cfg.kMaxUnwindDataSize < align16 dataSize + codeSize) :
    allocate cfg env s data dataSize code codeSize = (none, s) := by
  unfold allocate
  rw [if_pos hover]

/-- Witness for C8 at scenario S3: `codeSize = blockSize - kMaxUnwindDataSize + 1`. -/
theorem c8_oversize_guard_witness :
    cfgT.kMaxUnwindDataSize < cfgT.blockSize ∧
    cfgT.blockSize - cfgT.kMaxUnwindDataSize < align16 0 + 16129 ∧
    allocate cfgT envT initState (fun _ => 0) 0 (fun _ => 0) 16129 = (none, initState) :=
  ⟨by decide, by decide,
    c8_oversize_guard cfgT envT initState (fun _ => 0) (fun _ => 0) 0 16129
      (by decide) (by decide)⟩

/-! ### C3: the S4 capacity-exhaustion scenario -/

/-- C3 (amended): with `blockSize = 4 * 4096`, `maxTotalSize = 16 * 4096` and no
unwind hook, repeated `allocate(dataSize = 0, codeSize = 4096)` succeeds
sixteen times — four page-sized allocations per block, in four blocks — and
the seventeenth call fails because a fifth block would violate
`5 * blockSize > maxTotalSize`. -/
theorem c3_block_exhaustion :
    (runTrace cfgT envT (List.replicate 17 req4096)).2 =
      ((List.range 16).map fun i =>
        some { result := (i / 4 + 1) * 16384 + i % 4 * 4096
               resultSize := 4096
               resultCodeStart := (i / 4 + 1) * 16384 + i % 4 * 4096 }) ++ [none] ∧
    (runTrace cfgT envT (List.replicate 17 req4096)).1.blocks = [16384, 32768, 49152, 65536] := by
  decide

/-- Counterexample to C3 as stated: the fifth `allocate(0, 4096)` call
succeeds (each block holds four such allocations), and after two calls only
one block exists, so the first calls do not get a block each. -/
theorem c3_counterexample :
    ((runTrace cfgT envT (List.replicate 5 req4096)).2.getD 4 none).isSome = true ∧
    (runTrace cfgT envT (List.replicate 2 req4096)).1.blocks.length = 1 := by
  decide

/-! ### Characterizations of the reservation step and of `allocate` -/

/-- The oversize guard: the very first test of `allocate`. -/
theorem allocate_oversize {cfg : Config} {env : Env} {s : AllocState}
    {data code : Nat → Nat} {dataSize codeSize : Nat}
    (h : align16 dataSize + codeSize > cfg.blockSize - cfg.kMaxUnwindDataSize) :
    allocate cfg env s data dataSize code codeSize = (none, s) := by
  unfold allocate
  rw [if_pos h]

/-- If the reservation step reports failure, `allocate` fails with the state
the reservation step produced. -/
theorem allocate_reserveFalse {cfg : Config} {env : Env} {s : AllocState}
    {data code : Nat → Nat} {dataSize codeSize : Nat} {u : Nat} {s1 : AllocState}
    (hover : ¬align16 dataSize + codeSize > cfg.blockSize - cfg.kMaxUnwindDataSize)
    (hres : reserveStep cfg env s (align16 dataSize + codeSize) = (false, u, s1)) :
    allocate cfg env s data dataSize code codeSize = (none, s1) := by
  simp only [allocate, if_neg hover, hres]

/-- If the reservation step succeeds, `allocate` performs the layout at the
post-reservation cursor and advances it by a whole number of pages. -/
theorem allocate_reserveTrue {cfg : Config} {env : Env} {s : AllocState}
    {data code : Nat → Nat} {dataSize codeSize : Nat} {uis : Nat} {s1 : AllocState}
    (hover : ¬align16 dataSize + codeSize > cfg.blockSize - cfg.kMaxUnwindDataSize)
    (hres : reserveStep cfg env s (align16 dataSize + codeSize) = (true, uis, s1)) :
    allocate cfg env s data dataSize code codeSize =
      (some { result := s1.blockPos + uis
              resultSize := align16 dataSize + codeSize
              resultCodeStart := s1.blockPos + (uis + align16 dataSize) },
        { s1 with
          mem :=
            if codeSize ≠ 0 then
              memcpyN
                (if dataSize ≠ 0 then
                  memcpyN s1.mem (s1.blockPos + (uis + align16 dataSize - dataSize)) data dataSize
                else s1.mem)
                (s1.blockPos + (uis + align16 dataSize)) code codeSize
            else
              if dataSize ≠ 0 then
                memcpyN s1.mem (s1.blockPos + (uis + align16 dataSize - dataSize)) data dataSize
              else s1.mem
          blockPos := s1.blockPos + alignToPageSize (uis + (align16 dataSize + codeSize)) }) := by
  simp only [allocate, if_neg hover, hres]

/-- Exhaustive description of a failing reservation step: either the state is
untouched (cap refusal, OS refusal, or no reservation attempted), or the
unwind callback returned null after the new block was already published. -/
theorem reserveStep_false {cfg : Config} {env : Env} {s : AllocState} {t u : Nat}
    {s1 : AllocState} (h : reserveStep cfg env s t = (false, u, s1)) :
    s1 = s ∨
      (cfg.hasUnwindHook = true ∧ ∃ b,
        env.allocPages s.blocks.length = some b ∧
        (s.blocks.length + 1) * cfg.blockSize ≤ cfg.maxTotalSize ∧
        (env.createBlockUnwindInfo s.blocks.length b).1 = none ∧
        s1 = { s with blockPos := b, blockEnd := b + cfg.blockSize, blocks := s.blocks ++ [b] }) := by
  unfold reserveStep at h
  by_cases hfit : t > s.blockEnd - s.blockPos
  · rw [if_pos hfit] at h
    unfold allocateNewBlock at h
    by_cases hcap : (s.blocks.length + 1) * cfg.blockSize > cfg.maxTotalSize
    · rw [if_pos hcap] at h
      simp only [Prod.mk.injEq] at h
      exact Or.inl h.2.2.symm
    · rw [if_neg hcap] at h
      cases hp : env.allocPages s.blocks.length with
      | none =>
        simp only [hp, Prod.mk.injEq] at h
        exact Or.inl h.2.2.symm
      | some b =>
        simp only [hp] at h
        cases hhook : cfg.hasUnwindHook with
        | false => simp [hhook] at h
        | true =>
          simp only [hhook, if_true] at h
          cases hc : (env.createBlockUnwindInfo s.blocks.length b).1 with
          | none =>
            simp only [hc, Prod.mk.injEq] at h
            exact Or.inr ⟨rfl, b, by simp [hp], by omega, by simp [hc], h.2.2.symm⟩
          | some info => simp [hc] at h
  · rw [if_neg hfit] at h
    simp only [Prod.mk.injEq] at h
    exact absurd h.1 (by simp)

/-- Exhaustive description of a successful reservation step: either the
request fitted the current block and nothing changed, or a new block was
reserved, published, and (with the hook installed) given an unwind prelude. -/
theorem reserveStep_true {cfg : Config} {env : Env} {s : AllocState} {t uis : Nat}
    {s1 : AllocState} (h : reserveStep cfg env s t = (true, uis, s1)) :
    (¬t > s.blockEnd - s.blockPos ∧ uis = 0 ∧ s1 = s) ∨
      (t > s.blockEnd - s.blockPos ∧ ∃ b,
        (s.blocks.length + 1) * cfg.blockSize ≤ cfg.maxTotalSize ∧
        env.allocPages s.blocks.length = some b ∧
        s1.blockPos = b ∧ s1.blockEnd = b + cfg.blockSize ∧
        s1.blocks = s.blocks ++ [b] ∧ s1.mem = s.mem ∧
        (cfg.hasUnwindHook = true →
          uis = align16 (env.createBlockUnwindInfo s.blocks.length b).2 ∧
          ∃ info, (env.createBlockUnwindInfo s.blocks.length b).1 = some info ∧
            s1.unwindInfos = s.unwindInfos ++ [info]) ∧
        (cfg.hasUnwindHook = false → uis = 0 ∧ s1.unwindInfos = s.unwindInfos)) := by
  unfold reserveStep at h
  by_cases hfit : t > s.blockEnd - s.blockPos
  · rw [if_pos hfit] at h
    unfold allocateNewBlock at h
    by_cases hcap : (s.blocks.length + 1) * cfg.blockSize > cfg.maxTotalSize
    · rw [if_pos hcap] at h
      simp at h
    · rw [if_neg hcap] at h
      cases hp : env.allocPages s.blocks.length with
      | none => simp [hp] at h
      | some b =>
        simp only [hp] at h
        cases hhook : cfg.hasUnwindHook with
        | false =>
          simp only [hhook, Bool.false_eq_true, if_false, Prod.mk.injEq] at h
          obtain ⟨-, huis, hs1⟩ := h
          subst hs1
          refine Or.inr ⟨hfit, b, by omega, by simp [hp], rfl, rfl, rfl, rfl, ?_, ?_⟩
          · intro hcontr
            exact absurd hcontr (by simp)
          · intro _
            exact ⟨huis.symm, rfl⟩
        | true =>
          simp only [hhook, if_true] at h
          cases hc : (env.createBlockUnwindInfo s.blocks.length b).1 with
          | none => simp [hc] at h
          | some info =>
            simp only [hc, Prod.mk.injEq] at h
            obtain ⟨-, huis, hs1⟩ := h
            subst hs1
            refine Or.inr ⟨hfit, b, by omega, by simp [hp], rfl, rfl, rfl, rfl, ?_, ?_⟩
            · intro _
              exact ⟨huis.symm, info, by simp [hc], rfl⟩
            · intro hcontr
              exact absurd hcontr (by simp)
  · rw [if_neg hfit] at h
    simp only [Prod.mk.injEq] at h
    exact Or.inl ⟨hfit, h.2.1.symm, h.2.2.symm⟩

/-! ### C1: failure atomicity of `allocate` -/

/-- C1 (amended): a failing `allocate` call never touches `unwindInfos`, and
either leaves the state exactly as it was (oversize guard, block cap, null
`allocatePages`) or — when the failure came from the unwind-hook create
callback returning null — leaves the freshly reserved block appended to
`blocks` with `blockPos`/`blockEnd` pointing into it. -/
theorem c1_failure_atomicity (cfg : Config) (env : Env) (s : AllocState)
    (data code : Nat → Nat) (dataSize codeSize : Nat)
    (hfail : (allocate cfg env s data dataSize code codeSize).1 = none) :
    (allocate cfg env s data dataSize code codeSize).2.unwindInfos = s.unwindInfos ∧
    ((allocate cfg env s data dataSize code codeSize).2 = s ∨
      (cfg.hasUnwindHook = true ∧ ∃ b,
        env.allocPages s.blocks.length = some b ∧
        (env.createBlockUnwindInfo s.blocks.length b).1 = none ∧
        (allocate cfg env s data dataSize code codeSize).2 =
          { s with blockPos := b, blockEnd := b + cfg.blockSize, blocks := s.blocks ++ [b] })) := by
  by_cases hover : align16 dataSize + codeSize > cfg.blockSize - cfg.kMaxUnwindDataSize
  · rw [allocate_oversize hover]
    exact ⟨rfl, Or.inl rfl⟩
  · rcases hres : reserveStep cfg env s (align16 dataSize + codeSize) with ⟨ok, uis, s1⟩
    cases ok with
    | true =>
      rw [allocate_reserveTrue hover hres] at hfail
      exact absurd hfail (by simp)
    | false =>
      rw [allocate_reserveFalse hover hres]
      rcases reserveStep_false hres with h1 | ⟨hh, b, hp, -, hc, h1⟩
      · rw [h1]
        exact ⟨rfl, Or.inl rfl⟩
      · rw [h1]
        exact ⟨rfl, Or.inr ⟨hh, b, hp, hc, rfl⟩⟩

/-- Counterexample to C1 as stated: with the unwind hook installed and a
create callback that returns null, the failing `allocate` call leaves
`blockPos` moved onto the freshly reserved block and `blocks` grown. -/
theorem c1_counterexample :
    (allocate cfgH envHfail initState (fun _ => 0) 0 (fun _ => 0) 16).1 = none ∧
    (allocate cfgH envHfail initState (fun _ => 0) 0 (fun _ => 0) 16).2.blockPos ≠
      initState.blockPos ∧
    (allocate cfgH envHfail initState (fun _ => 0) 0 (fun _ => 0) 16).2.blocks ≠
      initState.blocks := by
  decide

/-- Witness for C1 (amended) at the oversize failure of scenario S3. -/
theorem c1_failure_atomicity_witness :
    (allocate cfgT envT initState (fun _ => 0) 0 (fun _ => 0) 16129).2 = initState := by
  have h := c1_failure_atomicity cfgT envT initState (fun _ => 0) (fun _ => 0) 0 16129
    (by decide)
  rcases h.2 with h1 | h1
  · exact h1
  · exact absurd h1.1 (by decide)

/-! ### C2: the unwind-info count invariant -/

/-- An environment whose unwind-create callback always succeeds, writing 40
bytes (rounded up to 48) and returning handle 5. -/
def envHok : Env :=
  { allocPages := fun n => some ((n + 1) * 16384)
    createBlockUnwindInfo := fun _ _ => (some 5, 40) }

/-- One-step preservation of the unwind-count relation, provided the create
callback never fails. -/
theorem unwindCount_step (cfg : Config) (env : Env)
    (hhook : ∀ n b, (env.createBlockUnwindInfo n b).1.isSome = true)
    (s : AllocState) (r : Request)
    (hs : s.unwindInfos.length = if cfg.hasUnwindHook then s.blocks.length else 0) :
    (stepReq cfg env s r).unwindInfos.length =
      if cfg.hasUnwindHook then (stepReq cfg env s r).blocks.length else 0 := by
  unfold stepReq
  by_cases hover : align16 r.dataSize + r.codeSize > cfg.blockSize - cfg.kMaxUnwindDataSize
  · rw [allocate_oversize hover]
    exact hs
  · rcases hres : reserveStep cfg env s (align16 r.dataSize + r.codeSize) with ⟨ok, uis, s1⟩
    cases ok with
    | false =>
      rw [allocate_reserveFalse hover hres]
      rcases reserveStep_false hres with h1 | ⟨_, b, _, _, hcnone, _⟩
      · rw [h1]; exact hs
      · have := hhook s.blocks.length b
        rw [hcnone] at this
        exact absurd this (by simp)
    | true =>
      rw [allocate_reserveTrue hover hres]
      simp only
      rcases reserveStep_true hres with ⟨_, _, h1⟩ | ⟨_, b, _, _, _, _, hblocks, _, hhk, hnohk⟩
      · rw [h1]; exact hs
      · cases hcase : cfg.hasUnwindHook with
        | true =>
          obtain ⟨_, info, _, hui⟩ := hhk hcase
          rw [hcase] at hs
          simp [hui, hblocks, hs]
        | false =>
          obtain ⟨_, hui⟩ := hnohk hcase
          rw [hcase] at hs
          simp [hui, hs]

/-- The unwind-count relation holds in every reachable state, provided the
create callback never fails. -/
theorem unwindCount_run (cfg : Config) (env : Env)
    (hhook : ∀ n b, (env.createBlockUnwindInfo n b).1.isSome = true)
    (rs : List Request) :
    (runAllocs cfg env rs).unwindInfos.length =
      if cfg.hasUnwindHook then (runAllocs cfg env rs).blocks.length else 0 := by
  suffices h : ∀ s, s.unwindInfos.length = (if cfg.hasUnwindHook then s.blocks.length else 0) →
      (rs.foldl (stepReq cfg env) s).unwindInfos.length =
        if cfg.hasUnwindHook then (rs.foldl (stepReq cfg env) s).blocks.length else 0 by
    exact h initState (by simp [initState])
  induction rs with
  | nil => intro s hs; exact hs
  | cons r rest ih =>
    intro s hs
    exact ih (stepReq cfg env s r) (unwindCount_step cfg env hhook s r hs)

/-- C2 (amended): in every state reachable by `allocate` calls in an
environment where the unwind-create callback never returns null,
`unwindInfos.length` is 0 or `blocks.length`, and it is non-zero exactly when
the hook pair is installed and at least one block exists.  (The hook-failure
runs excluded here are the counterexample to the claim as stated.) -/
theorem c2_unwind_count (cfg : Config) (env : Env)
    (hhook : ∀ n b, (env.createBlockUnwindInfo n b).1.isSome = true)
    (rs : List Request) :
    ((runAllocs cfg env rs).unwindInfos.length = 0 ∨
      (runAllocs cfg env rs).unwindInfos.length = (runAllocs cfg env rs).blocks.length) ∧
    ((runAllocs cfg env rs).unwindInfos.length ≠ 0 ↔
      (cfg.hasUnwindHook = true ∧ (runAllocs cfg env rs).blocks ≠ [])) := by
  have h := unwindCount_run cfg env hhook rs
  cases hcase : cfg.hasUnwindHook with
  | false =>
    rw [hcase] at h
    simp only [if_false, Bool.false_eq_true] at h
    refine ⟨Or.inl h, ?_⟩
    constructor
    · intro hne; exact absurd h hne
    · rintro ⟨hcontr, -⟩; exact absurd hcontr (by simp [hcase])
  | true =>
    rw [hcase] at h
    simp only [if_true] at h
    refine ⟨Or.inr h, ?_⟩
    rw [h]
    constructor
    · intro hne
      exact ⟨rfl, fun hnil => hne (by simp [hnil])⟩
    · rintro ⟨-, hnil⟩
      simpa [List.length_eq_zero] using hnil

/-- Witness for C2 (amended) on a one-call run with a succeeding hook. -/
theorem c2_unwind_count_witness :
    (runAllocs cfgH envHok [req16]).unwindInfos.length = 0 ∨
    (runAllocs cfgH envHok [req16]).unwindInfos.length =
      (runAllocs cfgH envHok [req16]).blocks.length :=
  (c2_unwind_count cfgH envHok (fun _ _ => rfl) [req16]).1

/-- Counterexample to C2 as stated: after a single call whose unwind-create
callback returned null, the hook is installed and a block exists, yet
`unwindInfos` is empty — "non-zero exactly when configured and a block
exists" fails on the code. -/
theorem c2_counterexample :
    cfgH.hasUnwindHook = true ∧
    ¬((runAllocs cfgH envHfail [req16]).unwindInfos.length ≠ 0 ↔
        (cfgH.hasUnwindHook = true ∧ (runAllocs cfgH envHfail [req16]).blocks ≠ [])) := by
  decide

/-! ### C9: the destructor's teardown order -/

theorem destroyedHandles_append (a b : List TeardownEvent) :
    destroyedHandles (a ++ b) = destroyedHandles a ++ destroyedHandles b := by
  unfold destroyedHandles
  exact List.filterMap_append a b _

theorem destroyedHandles_destroys (us : List Nat) :
    destroyedHandles (us.map TeardownEvent.destroyUnwind) = us := by
  induction us with
  | nil => rfl
  | cons u rest ih => simpa [destroyedHandles] using ih

theorem destroyedHandles_frees (bs : List Nat) (sz : Nat) :
    destroyedHandles (bs.map fun b => TeardownEvent.freeBlock b sz) = [] := by
  induction bs with
  | nil => rfl
  | cons b rest ih => simpa [destroyedHandles] using ih

/-- C9: with the hook pair installed, the destructor passes exactly the
stored handles to the destroy callback, in order and each exactly once, and
every destroy call precedes every `freePages` call. -/
theorem c9_destroy_before_free (cfg : Config) (s : AllocState)
    (hc : cfg.hasUnwindHook = true) :
    destroyedHandles (destructorTrace cfg s) = s.unwindInfos ∧
    (∀ i j h b sz,
      (destructorTrace cfg s).get? i = some (TeardownEvent.destroyUnwind h) →
      (destructorTrace cfg s).get? j = some (TeardownEvent.freeBlock b sz) → i < j) := by
  have htrace : destructorTrace cfg s =
      s.unwindInfos.map TeardownEvent.destroyUnwind ++
        s.blocks.map (fun b => TeardownEvent.freeBlock b cfg.blockSize) := by
    simp [destructorTrace, hc]
  constructor
  · rw [htrace, destroyedHandles_append, destroyedHandles_destroys, destroyedHandles_frees,
      List.append_nil]
  · intro i j h b sz hi hj
    rw [htrace] at hi hj
    by_cases hilt : i < (s.unwindInfos.map TeardownEvent.destroyUnwind).length
    · by_cases hjlt : j < (s.unwindInfos.map TeardownEvent.destroyUnwind).length
      · exfalso
        rw [List.get?_append hjlt] at hj
        have hmem := List.get?_mem hj
        rcases List.mem_map.mp hmem with ⟨u, -, hu⟩
        exact absurd hu (by simp)
      · omega
    · exfalso
      rw [List.get?_append_right (by omega)] at hi
      have hmem := List.get?_mem hi
      rcases List.mem_map.mp hmem with ⟨u, -, hu⟩
      exact absurd hu (by simp)

/-- Witness for C9 on a concrete two-event teardown. -/
theorem c9_destroy_before_free_witness :
    destroyedHandles
        (destructorTrace cfgH
          { blocks := [4096], unwindInfos := [7], blockPos := 4096, blockEnd := 20480,
            mem := fun _ => 0 }) = [7] ∧
    (0 : Nat) < 1 := by
  have h := c9_destroy_before_free cfgH
    { blocks := [4096], unwindInfos := [7], blockPos := 4096, blockEnd := 20480,
      mem := fun _ => 0 } rfl
  exact ⟨h.1, h.2 0 1 7 4096 16384 (by decide) (by decide)⟩

/-! ### Well-formedness of configurations and environments -/

/-- The constructor's assertions plus the (implicit) requirement that blocks
are a whole number of pages, which every real configuration satisfies. -/
def CfgOK (cfg : Config) : Prop :=
  cfg.kMaxUnwindDataSize < cfg.blockSize ∧ cfg.blockSize ≤ cfg.maxTotalSize ∧
    cfg.blockSize % kPageSize = 0

/-- The platform/hook contract: reserved blocks are page-aligned, non-null
and pairwise disjoint, and the unwind callback honours the
`unwindInfoSize <= kMaxUnwindDataSize` assertion after 16-byte rounding. -/
def EnvOK (cfg : Config) (env : Env) : Prop :=
  (∀ n b, env.allocPages n = some b → b % kPageSize = 0 ∧ 0 < b) ∧
  (∀ m n a b, m ≠ n → env.allocPages m = some a → env.allocPages n = some b →
    a + cfg.blockSize ≤ b ∨ b + cfg.blockSize ≤ a) ∧
  (∀ n b, align16 (env.createBlockUnwindInfo n b).2 ≤ cfg.kMaxUnwindDataSize)

/-- Cursor sanity: page-aligned cursor and sentinel bracketing the last
block (or both null when no block exists yet). -/
def CursorInv (cfg : Config) (s : AllocState) : Prop :=
  s.blockPos % kPageSize = 0 ∧ s.blockEnd % kPageSize = 0 ∧ s.blockPos ≤ s.blockEnd ∧
  (s.blocks = [] → s.blockPos = 0 ∧ s.blockEnd = 0) ∧
  (∀ b, s.blocks.getLast? = some b → s.blockEnd = b + cfg.blockSize ∧ b ≤ s.blockPos)

/-- The `i`-th owned block is exactly what the platform returned for the
`i`-th reservation. -/
def BlocksFromEnv (env : Env) (s : AllocState) : Prop :=
  ∀ i b, s.blocks.get? i = some b → env.allocPages i = some b

theorem cfgT_ok : CfgOK cfgT :=
  ⟨by decide, by decide, by decide⟩

theorem envT_ok : EnvOK cfgT envT := by
  refine ⟨?_, ?_, ?_⟩
  · intro n b hb
    have hb' : (n + 1) * 16384 = b := by simpa [envT] using hb
    subst hb'
    constructor
    · have : (n + 1) * 16384 = 4096 * ((n + 1) * 4) := by ring
      rw [this, kPageSize]
      exact Nat.mul_mod_right 4096 _
    · positivity
  · intro m n a b hmn ha hb
    have ha' : (m + 1) * 16384 = a := by simpa [envT] using ha
    have hb' : (n + 1) * 16384 = b := by simpa [envT] using hb
    subst ha'; subst hb'
    simp only [cfgT]
    omega
  · intro n b
    simp [envT, cfgT, align16]

/-! ### C4: the global size cap -/

/-- One-step preservation of the cap bound, for any configuration and
environment. -/
theorem capBound_step (cfg : Config) (env : Env) (s : AllocState) (r : Request)
    (h : s.blocks.length * cfg.blockSize ≤ cfg.maxTotalSize) :
    (stepReq cfg env s r).blocks.length * cfg.blockSize ≤ cfg.maxTotalSize := by
  unfold stepReq
  by_cases hover : align16 r.dataSize + r.codeSize > cfg.blockSize - cfg.kMaxUnwindDataSize
  · rw [allocate_oversize hover]; exact h
  · rcases hres : reserveStep cfg env s (align16 r.dataSize + r.codeSize) with ⟨ok, uis, s1⟩
    cases ok with
    | false =>
      rw [allocate_reserveFalse hover hres]
      rcases reserveStep_false hres with h1 | ⟨-, b, -, hcap, -, h1⟩
      · rw [h1]; exact h
      · rw [h1]; simpa using hcap
    | true =>
      rw [allocate_reserveTrue hover hres]
      simp only
      rcases reserveStep_true hres with ⟨-, -, h1⟩ | ⟨-, b, hcap, -, -, -, hblocks, -, -, -⟩
      · rw [h1]; exact h
      · rw [hblocks]; simpa using hcap

/-- C4: in every reachable state `blocks.size * blockSize ≤ maxTotalSize`;
`allocateNewBlock` refuses — failing with the state untouched — whenever
`(blocks.size + 1) * blockSize > maxTotalSize`, and conversely, whenever that
bound holds and the platform yields a block, the block is reserved (appended
to `blocks`), so the cap counts the block about to be created. -/
theorem c4_size_cap (cfg : Config) (env : Env) :
    (∀ rs, (runAllocs cfg env rs).blocks.length * cfg.blockSize ≤ cfg.maxTotalSize) ∧
    (∀ s, (s.blocks.length + 1) * cfg.blockSize > cfg.maxTotalSize →
      allocateNewBlock cfg env s = (false, 0, s)) ∧
    (∀ s b, ¬(s.blocks.length + 1) * cfg.blockSize > cfg.maxTotalSize →
      env.allocPages s.blocks.length = some b →
      (allocateNewBlock cfg env s).2.2.blocks = s.blocks ++ [b]) := by
  refine ⟨?_, ?_, ?_⟩
  · intro rs
    suffices h : ∀ s, s.blocks.length * cfg.blockSize ≤ cfg.maxTotalSize →
        (rs.foldl (stepReq cfg env) s).blocks.length * cfg.blockSize ≤ cfg.maxTotalSize by
      exact h initState (by simp [initState])
    induction rs with
    | nil => intro s hs; exact hs
    | cons r rest ih => intro s hs; exact ih _ (capBound_step cfg env s r hs)
  · intro s hcap
    unfold allocateNewBlock
    rw [if_pos hcap]
  · intro s b hcap hp
    unfold allocateNewBlock
    rw [if_neg hcap]
    simp only [hp]
    cases hhook : cfg.hasUnwindHook with
    | false => simp
    | true =>
      simp only [if_true]
      cases hc : (env.createBlockUnwindInfo s.blocks.length b).1 <;> simp [hc]

/-- Witness for C4: the cap invariant on a 17-call run, a concrete refusal
at four blocks, and a concrete reservation below the cap. -/
theorem c4_size_cap_witness :
    (runAllocs cfgT envT (List.replicate 17 req4096)).blocks.length * cfgT.blockSize ≤
      cfgT.maxTotalSize ∧
    allocateNewBlock cfgT envT
        { blocks := [16384, 32768, 49152, 65536], unwindInfos := [], blockPos := 81920,
          blockEnd := 81920, mem := fun _ => 0 } =
      (false, 0,
        { blocks := [16384, 32768, 49152, 65536], unwindInfos := [], blockPos := 81920,
          blockEnd := 81920, mem := fun _ => 0 }) ∧
    (allocateNewBlock cfgT envT initState).2.2.blocks = [] ++ [16384] :=
  ⟨(c4_size_cap cfgT envT).1 (List.replicate 17 req4096),
    (c4_size_cap cfgT envT).2.1 _ (by decide),
    (c4_size_cap cfgT envT).2.2 initState 16384 (by decide) rfl⟩

/-! ### The cursor invariant along every run -/

theorem alignToPageSize_zero : alignToPageSize 0 = 0 := by decide

theorem cursorInv_init (cfg : Config) : CursorInv cfg initState := by
  refine ⟨rfl, rfl, le_refl 0, fun _ => ⟨rfl, rfl⟩, ?_⟩
  intro b hb
  simp [initState] at hb

theorem blocksFromEnv_init (env : Env) : BlocksFromEnv env initState := by
  intro i b hb
  simp [initState] at hb

/-- Cursor sanity for any state whose last block `b` was just reserved and
whose cursor sits inside `[b, b + blockSize]` at a page boundary. -/
theorem cursorInv_newBlockState {cfg : Config} {s' : AllocState} {b : Nat} {l : List Nat}
    (hcfg : CfgOK cfg) (hpage : b % kPageSize = 0)
    (hblocks : s'.blocks = l ++ [b]) (hend : s'.blockEnd = b + cfg.blockSize)
    (hposmod : s'.blockPos % kPageSize = 0)
    (hpos : b ≤ s'.blockPos) (hposle : s'.blockPos ≤ b + cfg.blockSize) :
    CursorInv cfg s' := by
  refine ⟨hposmod, ?_, ?_, ?_, ?_⟩
  · rw [hend]
    have := hcfg.2.2
    unfold kPageSize at *
    omega
  · rw [hend]; exact hposle
  · intro hnil
    rw [hblocks] at hnil
    simp at hnil
  · intro b' hlast
    rw [hblocks, List.getLast?_concat] at hlast
    obtain rfl : b' = b := by injection hlast with h; exact h.symm
    exact ⟨hend, hpos⟩

/-- Cursor sanity is preserved when the cursor advances by pages within the
current block. -/
theorem cursorInv_advance {cfg : Config} {s s' : AllocState} {k : Nat}
    (hcur : CursorInv cfg s)
    (hblocks : s'.blocks = s.blocks) (hend : s'.blockEnd = s.blockEnd)
    (hpos : s'.blockPos = s.blockPos + alignToPageSize k)
    (hk : k ≤ s.blockEnd - s.blockPos) :
    CursorInv cfg s' := by
  obtain ⟨h1, h2, h3, h4, h5⟩ := hcur
  have hmod : (s.blockEnd - s.blockPos) % kPageSize = 0 := by
    unfold kPageSize at *
    omega
  have hle : alignToPageSize k ≤ s.blockEnd - s.blockPos := alignToPageSize_le_of_le hk hmod
  have hamod := alignToPageSize_mod k
  refine ⟨?_, ?_, ?_, ?_, ?_⟩
  · rw [hpos]
    unfold kPageSize at *
    omega
  · rw [hend]; exact h2
  · rw [hpos, hend]; omega
  · intro hnil
    rw [hblocks] at hnil
    obtain ⟨hp0, he0⟩ := h4 hnil
    have hk0 : k = 0 := by omega
    subst hk0
    rw [alignToPageSize_zero] at hpos
    exact ⟨by omega, by rw [hend]; exact he0⟩
  · intro b hlast
    rw [hblocks] at hlast
    obtain ⟨hel, hbl⟩ := h5 b hlast
    exact ⟨by rw [hend]; exact hel, by rw [hpos]; omega⟩

theorem blocksFromEnv_same {env : Env} {s s' : AllocState}
    (hbe : BlocksFromEnv env s) (hb : s'.blocks = s.blocks) : BlocksFromEnv env s' := by
  intro i bi hi
  exact hbe i bi (by rw [← hb]; exact hi)

theorem blocksFromEnv_grow {env : Env} {s s' : AllocState} {b : Nat}
    (hbe : BlocksFromEnv env s) (hp : env.allocPages s.blocks.length = some b)
    (hb : s'.blocks = s.blocks ++ [b]) : BlocksFromEnv env s' := by
  intro i bi hi
  rw [hb] at hi
  by_cases hilt : i < s.blocks.length
  · exact hbe i bi (by rw [List.get?_append hilt] at hi; exact hi)
  · have hlen := (List.get?_eq_some.mp hi).1
    simp only [List.length_append, List.length_singleton] at hlen
    obtain rfl : i = s.blocks.length := by omega
    rw [List.get?_concat_length] at hi
    obtain rfl : b = bi := by injection hi
    exact hp

/-- One-step preservation of cursor sanity and block provenance. -/
theorem stateInv_step (cfg : Config) (env : Env) (s : AllocState) (r : Request)
    (hcfg : CfgOK cfg) (henv : EnvOK cfg env)
    (hcur : CursorInv cfg s) (hbe : BlocksFromEnv env s) :
    CursorInv cfg (stepReq cfg env s r) ∧ BlocksFromEnv env (stepReq cfg env s r) := by
  unfold stepReq
  by_cases hover : align16 r.dataSize + r.codeSize > cfg.blockSize - cfg.kMaxUnwindDataSize
  · rw [allocate_oversize hover]
    exact ⟨hcur, hbe⟩
  · rcases hres : reserveStep cfg env s (align16 r.dataSize + r.codeSize) with ⟨ok, uis, s1⟩
    cases ok with
    | false =>
      rw [allocate_reserveFalse hover hres]
      rcases reserveStep_false hres with h1 | ⟨-, b, hp, -, -, h1⟩
      · rw [h1]; exact ⟨hcur, hbe⟩
      · subst h1
        have hpage := (henv.1 _ _ hp).1
        constructor
        · refine cursorInv_newBlockState (l := s.blocks) hcfg hpage rfl rfl ?_ ?_ ?_
          · exact hpage
          · exact le_refl b
          · exact Nat.le_add_right b cfg.blockSize
        · exact blocksFromEnv_grow hbe hp rfl
    | true =>
      rw [allocate_reserveTrue hover hres]
      rcases reserveStep_true hres with ⟨hfit, huis, h1⟩ | ⟨-, b, -, hp, hpos1, hend1, hblocks1, -, hhk, hnohk⟩
      · subst huis
        rw [h1]
        constructor
        · refine cursorInv_advance (k := align16 r.dataSize + r.codeSize) hcur rfl rfl ?_ (by omega)
          show s.blockPos + alignToPageSize (0 + (align16 r.dataSize + r.codeSize)) =
            s.blockPos + alignToPageSize (align16 r.dataSize + r.codeSize)
          rw [Nat.zero_add]
        · exact blocksFromEnv_same hbe rfl
      · -- a fresh block was reserved; the prelude and the request fit in it
        have hpage := (henv.1 _ _ hp).1
        have huisb : uis ≤ cfg.kMaxUnwindDataSize := by
          cases hcase : cfg.hasUnwindHook with
          | true =>
            obtain ⟨huis, -⟩ := hhk hcase
            rw [huis]
            exact henv.2.2 s.blocks.length b
          | false =>
            obtain ⟨huis, -⟩ := hnohk hcase
            omega
        have hfitnew : uis + (align16 r.dataSize + r.codeSize) ≤ cfg.blockSize := by
          have := hcfg.1
          omega
        have hple : alignToPageSize (uis + (align16 r.dataSize + r.codeSize)) ≤ cfg.blockSize :=
          alignToPageSize_le_of_le hfitnew hcfg.2.2
        have hpmod := alignToPageSize_mod (uis + (align16 r.dataSize + r.codeSize))
        constructor
        · refine cursorInv_newBlockState (l := s.blocks) hcfg hpage ?_ ?_ ?_ ?_ ?_
          · show s1.blocks = s.blocks ++ [b]
            exact hblocks1
          · show s1.blockEnd = b + cfg.blockSize
            exact hend1
          · show (s1.blockPos + alignToPageSize (uis + (align16 r.dataSize + r.codeSize))) %
              kPageSize = 0
            rw [hpos1]
            unfold kPageSize at hpage hpmod ⊢
            omega
          · show b ≤ s1.blockPos + alignToPageSize (uis + (align16 r.dataSize + r.codeSize))
            rw [hpos1]
            omega
          · show s1.blockPos + alignToPageSize (uis + (align16 r.dataSize + r.codeSize)) ≤
              b + cfg.blockSize
            rw [hpos1]
            omega
        · refine blocksFromEnv_grow hbe hp ?_
          show s1.blocks = s.blocks ++ [b]
          exact hblocks1

/-- Cursor sanity and block provenance hold in every reachable state. -/
theorem stateInv_run (cfg : Config) (env : Env) (rs : List Request)
    (hcfg : CfgOK cfg) (henv : EnvOK cfg env) :
    CursorInv cfg (runAllocs cfg env rs) ∧ BlocksFromEnv env (runAllocs cfg env rs) := by
  suffices h : ∀ s, CursorInv cfg s → BlocksFromEnv env s →
      CursorInv cfg (rs.foldl (stepReq cfg env) s) ∧
        BlocksFromEnv env (rs.foldl (stepReq cfg env) s) by
    exact h initState (cursorInv_init cfg) (blocksFromEnv_init env)
  induction rs with
  | nil => intro s h1 h2; exact ⟨h1, h2⟩
  | cons r rest ih =>
    intro s h1 h2
    obtain ⟨h1', h2'⟩ := stateInv_step cfg env s r hcfg henv h1 h2
    exact ih _ h1' h2'

/-! ### C5: 16-byte alignment of the returned pointers -/

/-- C5: every successful `allocate` call from a reachable state returns a
16-byte-aligned `resultCodeStart` and a 16-byte-aligned `result`; moreover,
when the call opened a new block with the unwind hook installed, `result` is
exactly the block base plus the 16-byte-rounded unwind size. -/
theorem c5_alignment (cfg : Config) (env : Env) (rs : List Request)
    (data code : Nat → Nat) (dataSize codeSize : Nat) (res : AllocResult)
    (hcfg : CfgOK cfg) (henv : EnvOK cfg env)
    (hsucc : (allocate cfg env (runAllocs cfg env rs) data dataSize code codeSize).1 =
      some res) :
    res.resultCodeStart % 16 = 0 ∧ res.result % 16 = 0 ∧
    (∀ b, cfg.hasUnwindHook = true →
      align16 dataSize + codeSize >
        (runAllocs cfg env rs).blockEnd - (runAllocs cfg env rs).blockPos →
      env.allocPages (runAllocs cfg env rs).blocks.length = some b →
      res.result =
        b + align16 (env.createBlockUnwindInfo (runAllocs cfg env rs).blocks.length b).2) := by
  obtain ⟨hcur, hbe⟩ := stateInv_run cfg env rs hcfg henv
  set s := runAllocs cfg env rs with hs
  by_cases hover : align16 dataSize + codeSize > cfg.blockSize - cfg.kMaxUnwindDataSize
  · rw [allocate_oversize hover] at hsucc
    exact absurd hsucc (by simp)
  · rcases hres : reserveStep cfg env s (align16 dataSize + codeSize) with ⟨ok, uis, s1⟩
    cases ok with
    | false =>
      rw [allocate_reserveFalse hover hres] at hsucc
      exact absurd hsucc (by simp)
    | true =>
      rw [allocate_reserveTrue hover hres] at hsucc
      simp only [Option.some.injEq] at hsucc
      subst hsucc
      have hmod16 : align16 dataSize % 16 = 0 := align16_mod dataSize
      rcases reserveStep_true hres with ⟨hfit, huis, h1⟩ | ⟨hfit, b, -, hp, hpos1, -, -, -, hhk, hnohk⟩
      · subst huis
        rw [h1]
        have hposmod : s.blockPos % 16 = 0 := by
          have := hcur.1
          unfold kPageSize at this
          omega
        refine ⟨by simp only; omega, by simp only; omega, ?_⟩
        intro b hh hfit2 hp2
        exact absurd hfit2 hfit
      · have hpage : b % kPageSize = 0 := (henv.1 _ _ hp).1
        have hb16 : b % 16 = 0 := by
          unfold kPageSize at hpage
          omega
        have huismod : uis % 16 = 0 := by
          cases hcase : cfg.hasUnwindHook with
          | true =>
            obtain ⟨huis, -⟩ := hhk hcase
            rw [huis]
            exact align16_mod _
          | false =>
            obtain ⟨huis, -⟩ := hnohk hcase
            omega
        refine ⟨by simp only [hpos1]; omega, by simp only [hpos1]; omega, ?_⟩
        intro b' hh hfit2 hp2
        obtain rfl : b = b' := by
          rw [hp] at hp2
          injection hp2
        obtain ⟨huis, -⟩ := hhk hh
        simp only [hpos1, huis]

/-- Witness for C5 at scenario S1 from a fresh allocator. -/
theorem c5_alignment_witness :
    ({ result := 16384, resultSize := 17, resultCodeStart := 16384 } : AllocResult).resultCodeStart
        % 16 = 0 ∧
    ({ result := 16384, resultSize := 17, resultCodeStart := 16384 } : AllocResult).result
        % 16 = 0 :=
  ⟨(c5_alignment cfgT envT [] (fun _ => 0) (fun _ => 144) 0 17
      { result := 16384, resultSize := 17, resultCodeStart := 16384 }
      cfgT_ok envT_ok (by decide)).1,
   (c5_alignment cfgT envT [] (fun _ => 0) (fun _ => 144) 0 17
      { result := 16384, resultSize := 17, resultCodeStart := 16384 }
      cfgT_ok envT_ok (by decide)).2.1⟩

/-! ### C6: layout offsets, copied bytes, and the returned triple -/

/-- C6: on the success path (reservation step returned `(true, uis, s1)`),
`allocate` returns `(blockPos + unwindInfoSize, roundUp16 dataSize + codeSize,
blockPos + codeOffset)` with `codeOffset = unwindInfoSize + roundUp16 dataSize`,
places the data bytes at offset `unwindInfoSize + roundUp16 dataSize - dataSize`
from the cursor, and places the code bytes at offset `codeOffset`. -/
theorem c6_layout (cfg : Config) (env : Env) (s : AllocState)
    (data code : Nat → Nat) (dataSize codeSize : Nat) (uis : Nat) (s1 : AllocState)
    (hover : ¬align16 dataSize + codeSize > cfg.blockSize - cfg.kMaxUnwindDataSize)
    (hres : reserveStep cfg env s (align16 dataSize + codeSize) = (true, uis, s1)) :
    (allocate cfg env s data dataSize code codeSize).1 =
      some { result := s1.blockPos + uis
             resultSize := align16 dataSize + codeSize
             resultCodeStart := s1.blockPos + (uis + align16 dataSize) } ∧
    (∀ i, i < dataSize →
      (allocate cfg env s data dataSize code codeSize).2.mem
        (s1.blockPos + (uis + align16 dataSize - dataSize) + i) = data i) ∧
    (∀ i, i < codeSize →
      (allocate cfg env s data dataSize code codeSize).2.mem
        (s1.blockPos + (uis + align16 dataSize) + i) = code i) := by
  rw [allocate_reserveTrue hover hres]
  have ha16 := align16_ge dataSize
  refine ⟨rfl, ?_, ?_⟩
  · intro i hi
    have hdz : dataSize ≠ 0 := by omega
    by_cases hcz : codeSize ≠ 0
    · simp only [if_pos hcz, if_pos hdz, memcpyN]
      rw [if_neg (by rintro ⟨h1', h2'⟩; omega)]
      rw [if_pos (by exact ⟨by omega, by omega⟩)]
      congr 1
      omega
    · simp only [if_neg hcz, if_pos hdz, memcpyN]
      rw [if_pos (by exact ⟨by omega, by omega⟩)]
      congr 1
      omega
  · intro i hi
    have hcz : codeSize ≠ 0 := by omega
    simp only [if_pos hcz, memcpyN]
    rw [if_pos (by exact ⟨by omega, by omega⟩)]
    congr 1
    omega

/-- Witness for C6 at scenario S2: after S1, `allocate(data = [0xAA]*3,
code = [0xC3])` stays in the same block, the data sits 13 bytes after the
returned base, and `codeAddr = base + 16`. -/
theorem c6_layout_witness :
    (allocate cfgT envT (runAllocs cfgT envT [reqS1]) (fun _ => 170) 3 (fun _ => 195) 1).1 =
      some { result := 20480, resultSize := 17, resultCodeStart := 20496 } ∧
    (allocate cfgT envT (runAllocs cfgT envT [reqS1]) (fun _ => 170) 3 (fun _ => 195) 1).2.mem
      20493 = 170 ∧
    (allocate cfgT envT (runAllocs cfgT envT [reqS1]) (fun _ => 170) 3 (fun _ => 195) 1).2.mem
      20496 = 195 := by
  have h := c6_layout cfgT envT (runAllocs cfgT envT [reqS1]) (fun _ => 170) (fun _ => 195) 3 1
    0 (runAllocs cfgT envT [reqS1]) (by decide) rfl
  refine ⟨?_, ?_, ?_⟩
  · rw [h.1]; decide
  · have h0 := h.2.1 0 (by decide)
    have haddr : (runAllocs cfgT envT [reqS1]).blockPos + (0 + align16 3 - 3) + 0 = 20493 := by
      decide
    rw [haddr] at h0
    exact h0
  · have h0 := h.2.2 0 (by decide)
    have haddr : (runAllocs cfgT envT [reqS1]).blockPos + (0 + align16 3) + 0 = 20496 := by
      decide
    rw [haddr] at h0
    exact h0

/-! ### C7: non-overlap of returned ranges and block containment -/

/-- Set-style disjointness of the byte ranges of two allocation results. -/
def RangesDisjoint (r1 r2 : AllocResult) : Prop :=
  ∀ a, r1.result ≤ a → a < r1.result + r1.resultSize →
    ¬(r2.result ≤ a ∧ a < r2.result + r2.resultSize)

/-- The range of `r` lies inside the `i`-th owned block. -/
def inBlockIdx (cfg : Config) (s : AllocState) (r : AllocResult) (i : Nat) : Prop :=
  ∃ b, s.blocks.get? i = some b ∧ b ≤ r.result ∧
    r.result + r.resultSize ≤ b + cfg.blockSize

/-- Strengthened containment carried through the induction: the range lies in
some block, and if that block is the last one the range ends at or before the
cursor. -/
def Committed (cfg : Config) (s : AllocState) (r : AllocResult) : Prop :=
  ∃ i b, s.blocks.get? i = some b ∧ b ≤ r.result ∧
    r.result + r.resultSize ≤ b + cfg.blockSize ∧
    (i + 1 = s.blocks.length → r.result + r.resultSize ≤ s.blockPos)

/-- Disjointness as a relation on call outcomes (`none` relates to all). -/
def OutDisj (o1 o2 : Option AllocResult) : Prop :=
  ∀ r1 r2, o1 = some r1 → o2 = some r2 → RangesDisjoint r1 r2

/-- The full trace invariant: state sanity, containment of every successful
nonempty outcome, and pairwise disjointness of all outcomes. -/
def TraceOK (cfg : Config) (env : Env) (s : AllocState)
    (outs : List (Option AllocResult)) : Prop :=
  CursorInv cfg s ∧ BlocksFromEnv env s ∧
  (∀ r, some r ∈ outs → 0 < r.resultSize → Committed cfg s r) ∧
  outs.Pairwise OutDisj

theorem outDisj_none (o1 : Option AllocResult) : OutDisj o1 none :=
  fun _ _ _ h2 => absurd h2 (by simp)

theorem pairwise_snoc {l : List (Option AllocResult)} {o : Option AllocResult}
    (h : l.Pairwise OutDisj) (ho : ∀ o1 ∈ l, OutDisj o1 o) :
    (l ++ [o]).Pairwise OutDisj := by
  rw [List.pairwise_append]
  refine ⟨h, List.pairwise_singleton _ _, ?_⟩
  intro a ha b hb
  rw [List.mem_singleton] at hb
  subst hb
  exact ho a ha

theorem rangesDisjoint_symm {r1 r2 : AllocResult} (h : RangesDisjoint r1 r2) :
    RangesDisjoint r2 r1 := by
  intro a ha1 ha2 hc
  exact h a hc.1 hc.2 ⟨ha1, ha2⟩

theorem rangesDisjoint_of_le {r1 r2 : AllocResult}
    (h : r1.result + r1.resultSize ≤ r2.result) : RangesDisjoint r1 r2 := by
  intro a ha1 ha2 hc
  omega

theorem rangesDisjoint_of_zero {r1 r2 : AllocResult}
    (h : r1.resultSize = 0 ∨ r2.resultSize = 0) : RangesDisjoint r1 r2 := by
  intro a ha1 ha2 hc
  rcases h with h | h <;> omega

/-- Ranges contained in two distinct owned blocks are disjoint. -/
theorem rangesDisjoint_of_blocks {cfg : Config} {env : Env} (henv : EnvOK cfg env)
    {s' : AllocState} (hbe : BlocksFromEnv env s') {r1 r2 : AllocResult}
    {i j bi bj : Nat} (hij : i ≠ j)
    (hi : s'.blocks.get? i = some bi) (hj : s'.blocks.get? j = some bj)
    (h1a : bi ≤ r1.result) (h1b : r1.result + r1.resultSize ≤ bi + cfg.blockSize)
    (h2a : bj ≤ r2.result) (h2b : r2.result + r2.resultSize ≤ bj + cfg.blockSize) :
    RangesDisjoint r1 r2 := by
  have hd := henv.2.1 i j bi bj hij (hbe i bi hi) (hbe j bj hj)
  intro a ha1 ha2 hc
  rcases hd with hd | hd <;> omega

theorem committed_grow {cfg : Config} {s s' : AllocState} {r : AllocResult} {b : Nat}
    (hb : s'.blocks = s.blocks ++ [b]) (h : Committed cfg s r) : Committed cfg s' r := by
  obtain ⟨i, bi, hget, h1, h2, -⟩ := h
  obtain ⟨hilt, -⟩ := List.get?_eq_some.mp hget
  refine ⟨i, bi, ?_, h1, h2, ?_⟩
  · rw [hb, List.get?_append hilt]
    exact hget
  · intro hlast
    rw [hb] at hlast
    simp only [List.length_append, List.length_singleton] at hlast
    omega

theorem committed_advance {cfg : Config} {s s' : AllocState} {r : AllocResult}
    (hb : s'.blocks = s.blocks) (hpos : s.blockPos ≤ s'.blockPos)
    (h : Committed cfg s r) : Committed cfg s' r := by
  obtain ⟨i, bi, hget, h1, h2, hl⟩ := h
  refine ⟨i, bi, by rw [hb]; exact hget, h1, h2, ?_⟩
  intro hlast
  rw [hb] at hlast
  exact le_trans (hl hlast) hpos

/-- One-step preservation of the trace invariant. -/
theorem traceOK_step (cfg : Config) (env : Env) (hcfg : CfgOK cfg) (henv : EnvOK cfg env)
    (s : AllocState) (outs : List (Option AllocResult)) (rq : Request)
    (h : TraceOK cfg env s outs) :
    TraceOK cfg env (stepTrace cfg env (s, outs) rq).1 (stepTrace cfg env (s, outs) rq).2 := by
  obtain ⟨hcur, hbe, hcom, hpw⟩ := h
  unfold stepTrace
  by_cases hover : align16 rq.dataSize + rq.codeSize > cfg.blockSize - cfg.kMaxUnwindDataSize
  · rw [allocate_oversize hover]
    refine ⟨hcur, hbe, ?_, pairwise_snoc hpw (fun o1 _ => outDisj_none o1)⟩
    intro r hr hrs
    rcases List.mem_append.mp hr with hr | hr
    · exact hcom r hr hrs
    · simp at hr
  · rcases hres : reserveStep cfg env s (align16 rq.dataSize + rq.codeSize) with ⟨ok, uis, s1⟩
    cases ok with
    | false =>
      rw [allocate_reserveFalse hover hres]
      rcases reserveStep_false hres with h1 | ⟨-, b, hp, -, -, h1⟩
      · subst h1
        refine ⟨hcur, hbe, ?_, pairwise_snoc hpw (fun o1 _ => outDisj_none o1)⟩
        intro r hr hrs
        rcases List.mem_append.mp hr with hr | hr
        · exact hcom r hr hrs
        · simp at hr
      · subst h1
        have hpage := (henv.1 _ _ hp).1
        refine ⟨cursorInv_newBlockState (l := s.blocks) hcfg hpage rfl rfl hpage (le_refl b)
            (Nat.le_add_right b cfg.blockSize),
          blocksFromEnv_grow hbe hp rfl, ?_,
          pairwise_snoc hpw (fun o1 _ => outDisj_none o1)⟩
        intro r hr hrs
        rcases List.mem_append.mp hr with hr | hr
        · exact committed_grow rfl (hcom r hr hrs)
        · simp at hr
    | true =>
      rw [allocate_reserveTrue hover hres]
      rcases reserveStep_true hres with ⟨hfit, huis, h1⟩ |
        ⟨hfit, b, -, hp, hpos1, hend1, hblocks1, -, hhk, hnohk⟩
      · -- the request fitted in the current block
        subst huis
        rw [h1]
        have hT : align16 rq.dataSize + rq.codeSize ≤ s.blockEnd - s.blockPos := by omega
        have hmod : (s.blockEnd - s.blockPos) % kPageSize = 0 := by
          have h1' := hcur.1
          have h2' := hcur.2.1
          have h3' := hcur.2.2.1
          unfold kPageSize at *
          omega
        have hP : alignToPageSize (0 + (align16 rq.dataSize + rq.codeSize)) ≤
            s.blockEnd - s.blockPos := alignToPageSize_le_of_le (by omega) hmod
        have hge := alignToPageSize_ge (0 + (align16 rq.dataSize + rq.codeSize))
        have hposle := hcur.2.2.1
        refine ⟨?_, blocksFromEnv_same hbe rfl, ?_, ?_⟩
        · refine cursorInv_advance (k := 0 + (align16 rq.dataSize + rq.codeSize)) hcur
            rfl rfl rfl (by omega)
        · -- containment of every successful nonempty result
          intro r hr hrs
          rcases List.mem_append.mp hr with hr | hr
          · refine committed_advance ?_ ?_ (hcom r hr hrs)
            · show s.blocks = s.blocks
              rfl
            · show s.blockPos ≤
                s.blockPos + alignToPageSize (0 + (align16 rq.dataSize + rq.codeSize))
              omega
          · rw [List.mem_singleton] at hr
            injection hr with hr2
            subst hr2
            -- the freshly returned range sits at the cursor, in the last block
            have hrs' : 0 < align16 rq.dataSize + rq.codeSize := hrs
            have hne : s.blocks ≠ [] := by
              intro hnil
              obtain ⟨hp0, he0⟩ := hcur.2.2.2.1 hnil
              simp only at hrs
              omega
            cases hl : s.blocks.getLast? with
            | none => exact absurd (List.getLast?_eq_none_iff.mp hl) hne
            | some bl =>
              obtain ⟨hendl, hble⟩ := hcur.2.2.2.2 bl hl
              have hget : s.blocks.get? (s.blocks.length - 1) = some bl := by
                rw [← List.getLast?_eq_get?]
                exact hl
              have hlen : 0 < s.blocks.length := by
                cases hb : s.blocks with
                | nil => exact absurd hb hne
                | cons x xs => simp [hb]
              refine ⟨s.blocks.length - 1, bl, hget, ?_, ?_, ?_⟩
              · show bl ≤ s.blockPos + 0
                omega
              · show s.blockPos + 0 + (align16 rq.dataSize + rq.codeSize) ≤
                  bl + cfg.blockSize
                omega
              · intro _
                show s.blockPos + 0 + (align16 rq.dataSize + rq.codeSize) ≤
                  s.blockPos + alignToPageSize (0 + (align16 rq.dataSize + rq.codeSize))
                omega
        · -- pairwise disjointness with the new outcome
          refine pairwise_snoc hpw ?_
          intro o1 ho1 r1 r2 ho1eq hr2eq
          injection hr2eq.symm with hr2eq2
          subst hr2eq2
          subst ho1eq
          by_cases hz1 : r1.resultSize = 0
          · exact rangesDisjoint_of_zero (Or.inl hz1)
          by_cases hzT : align16 rq.dataSize + rq.codeSize = 0
          · refine rangesDisjoint_of_zero (Or.inr ?_)
            show align16 rq.dataSize + rq.codeSize = 0
            exact hzT
          obtain ⟨i, bi, hgeti, hi1, hi2, hil⟩ := hcom r1 ho1 (by omega)
          obtain ⟨hilt, -⟩ := List.get?_eq_some.mp hgeti
          have hne : s.blocks ≠ [] := by
            intro hnil
            rw [hnil] at hilt
            simp at hilt
          cases hl : s.blocks.getLast? with
          | none => exact absurd (List.getLast?_eq_none_iff.mp hl) hne
          | some bl =>
            obtain ⟨hendl, hble⟩ := hcur.2.2.2.2 bl hl
            have hget : s.blocks.get? (s.blocks.length - 1) = some bl := by
              rw [← List.getLast?_eq_get?]
              exact hl
            by_cases hi_last : i + 1 = s.blocks.length
            · have hend1 := hil hi_last
              refine rangesDisjoint_of_le ?_
              show r1.result + r1.resultSize ≤ s.blockPos + 0
              omega
            · have hfit' : align16 rq.dataSize + rq.codeSize ≤ s.blockEnd - s.blockPos := by
                omega
              refine rangesDisjoint_of_blocks henv hbe (i := i) (j := s.blocks.length - 1)
                (by omega) hgeti hget hi1 hi2 ?_ ?_
              · show bl ≤ s.blockPos + 0
                omega
              · show s.blockPos + 0 + (align16 rq.dataSize + rq.codeSize) ≤
                  bl + cfg.blockSize
                omega
      · -- a fresh block was reserved
        have hpage := (henv.1 _ _ hp).1
        have huisb : uis ≤ cfg.kMaxUnwindDataSize := by
          cases hcase : cfg.hasUnwindHook with
          | true =>
            obtain ⟨huis, -⟩ := hhk hcase
            rw [huis]
            exact henv.2.2 s.blocks.length b
          | false =>
            obtain ⟨huis, -⟩ := hnohk hcase
            omega
        have hfitnew : uis + (align16 rq.dataSize + rq.codeSize) ≤ cfg.blockSize := by
          have := hcfg.1
          omega
        have hple : alignToPageSize (uis + (align16 rq.dataSize + rq.codeSize)) ≤
            cfg.blockSize := alignToPageSize_le_of_le hfitnew hcfg.2.2
        have hge := alignToPageSize_ge (uis + (align16 rq.dataSize + rq.codeSize))
        have hblocks2 : s1.blocks = s.blocks ++ [b] := hblocks1
        have hgetb : s1.blocks.get? s.blocks.length = some b := by
          rw [hblocks2]
          exact List.get?_concat_length s.blocks b
        refine ⟨?_, ?_, ?_, ?_⟩
        · refine cursorInv_newBlockState (l := s.blocks) hcfg hpage ?_ ?_ ?_ ?_ ?_
          · show s1.blocks = s.blocks ++ [b]
            exact hblocks2
          · show s1.blockEnd = b + cfg.blockSize
            exact hend1
          · show (s1.blockPos + alignToPageSize (uis + (align16 rq.dataSize + rq.codeSize))) %
              kPageSize = 0
            rw [hpos1]
            have hpmod := alignToPageSize_mod (uis + (align16 rq.dataSize + rq.codeSize))
            unfold kPageSize at hpage hpmod ⊢
            omega
          · show b ≤ s1.blockPos + alignToPageSize (uis + (align16 rq.dataSize + rq.codeSize))
            rw [hpos1]
            omega
          · show s1.blockPos + alignToPageSize (uis + (align16 rq.dataSize + rq.codeSize)) ≤
              b + cfg.blockSize
            rw [hpos1]
            omega
        · exact blocksFromEnv_grow hbe hp hblocks2
        · intro r hr hrs
          rcases List.mem_append.mp hr with hr | hr
          · exact committed_grow hblocks2 (hcom r hr hrs)
          · rw [List.mem_singleton] at hr
            injection hr with hr2
            subst hr2
            refine ⟨s.blocks.length, b, ?_, ?_, ?_, ?_⟩
            · show s1.blocks.get? s.blocks.length = some b
              exact hgetb
            · show b ≤ s1.blockPos + uis
              rw [hpos1]
              omega
            · show s1.blockPos + uis + (align16 rq.dataSize + rq.codeSize) ≤
                b + cfg.blockSize
              rw [hpos1]
              omega
            · intro _
              show s1.blockPos + uis + (align16 rq.dataSize + rq.codeSize) ≤
                s1.blockPos + alignToPageSize (uis + (align16 rq.dataSize + rq.codeSize))
              omega
        · refine pairwise_snoc hpw ?_
          intro o1 ho1 r1 r2 ho1eq hr2eq
          injection hr2eq.symm with hr2eq2
          subst hr2eq2
          subst ho1eq
          by_cases hz1 : r1.resultSize = 0
          · exact rangesDisjoint_of_zero (Or.inl hz1)
          by_cases hzT : align16 rq.dataSize + rq.codeSize = 0
          · refine rangesDisjoint_of_zero (Or.inr ?_)
            show align16 rq.dataSize + rq.codeSize = 0
            exact hzT
          obtain ⟨i, bi, hgeti, hi1, hi2, -⟩ := hcom r1 ho1 (by omega)
          obtain ⟨hilt, -⟩ := List.get?_eq_some.mp hgeti
          have hgeti' : s1.blocks.get? i = some bi := by
            rw [hblocks2, List.get?_append hilt]
            exact hgeti
          refine rangesDisjoint_of_blocks henv (blocksFromEnv_grow hbe hp hblocks2)
            (i := i) (j := s.blocks.length) (by omega) hgeti' hgetb hi1 hi2 ?_ ?_
          · show b ≤ s1.blockPos + uis
            rw [hpos1]
            omega
          · show s1.blockPos + uis + (align16 rq.dataSize + rq.codeSize) ≤ b + cfg.blockSize
            rw [hpos1]
            omega

/-- The trace invariant holds along every run. -/
theorem traceOK_run (cfg : Config) (env : Env) (hcfg : CfgOK cfg) (henv : EnvOK cfg env)
    (rs : List Request) :
    TraceOK cfg env (runTrace cfg env rs).1 (runTrace cfg env rs).2 := by
  unfold runTrace
  suffices h : ∀ s outs, TraceOK cfg env s outs →
      TraceOK cfg env (rs.foldl (stepTrace cfg env) (s, outs)).1
        (rs.foldl (stepTrace cfg env) (s, outs)).2 by
    refine h initState [] ⟨cursorInv_init cfg, blocksFromEnv_init env, ?_, List.Pairwise.nil⟩
    intro r hr
    simp at hr
  induction rs with
  | nil => intro s outs h; exact h
  | cons r rest ih =>
    intro s outs h
    rw [List.foldl_cons]
    exact ih (stepTrace cfg env (s, outs) r).1 (stepTrace cfg env (s, outs) r).2
      (traceOK_step cfg env hcfg henv s outs r h)

/-- C7 (amended): over any run, the byte ranges of all successful calls are
pairwise disjoint (as sets of addresses, so empty ranges are trivially
disjoint), and every successful call with a nonempty range lies inside
exactly one owned block.  (The nonemptiness restriction is forced by the
degenerate zero-size success of the counterexample.) -/
theorem c7_nonoverlap (cfg : Config) (env : Env) (rs : List Request)
    (hcfg : CfgOK cfg) (henv : EnvOK cfg env) :
    (∀ i j r1 r2, i ≠ j →
      (runTrace cfg env rs).2.get? i = some (some r1) →
      (runTrace cfg env rs).2.get? j = some (some r2) →
      RangesDisjoint r1 r2) ∧
    (∀ r, some r ∈ (runTrace cfg env rs).2 → 0 < r.resultSize →
      ∃! i, inBlockIdx cfg (runTrace cfg env rs).1 r i) := by
  obtain ⟨hcur, hbe, hcom, hpw⟩ := traceOK_run cfg env hcfg henv rs
  constructor
  · have hkey : ∀ i j r1 r2, i < j →
        (runTrace cfg env rs).2.get? i = some (some r1) →
        (runTrace cfg env rs).2.get? j = some (some r2) →
        RangesDisjoint r1 r2 := by
      intro i j r1 r2 hij hi hj
      obtain ⟨hilt, hgi⟩ := List.get?_eq_some.mp hi
      obtain ⟨hjlt, hgj⟩ := List.get?_eq_some.mp hj
      exact (List.pairwise_iff_get.mp hpw) ⟨i, hilt⟩ ⟨j, hjlt⟩ hij r1 r2 hgi hgj
    intro i j r1 r2 hij hi hj
    rcases Nat.lt_or_ge i j with hlt | hge
    · exact hkey i j r1 r2 hlt hi hj
    · exact rangesDisjoint_symm (hkey j i r2 r1 (by omega) hj hi)
  · intro r hr hrs
    obtain ⟨i, bi, hget, h1, h2, -⟩ := hcom r hr hrs
    refine ⟨i, ⟨bi, hget, h1, h2⟩, ?_⟩
    intro j hj
    obtain ⟨bj, hgetj, hj1, hj2⟩ := hj
    by_contra hne
    have hd := henv.2.1 j i bj bi hne (hbe j bj hgetj) (hbe i bi hget)
    rcases hd with hd | hd <;> omega

/-- Witness for C7 (amended) on two S1-style calls in the same block. -/
theorem c7_nonoverlap_witness :
    RangesDisjoint { result := 16384, resultSize := 17, resultCodeStart := 16384 }
      { result := 20480, resultSize := 17, resultCodeStart := 20480 } ∧
    (∃! i, inBlockIdx cfgT (runTrace cfgT envT [reqS1, reqS1]).1
      { result := 16384, resultSize := 17, resultCodeStart := 16384 } i) := by
  have h := c7_nonoverlap cfgT envT [reqS1, reqS1] cfgT_ok envT_ok
  exact ⟨h.1 0 1 _ _ (by decide) (by decide) (by decide),
    h.2 { result := 16384, resultSize := 17, resultCodeStart := 16384 } (by decide) (by decide)⟩

/-- Counterexample to C7 as stated: the zero-size call on a fresh allocator
succeeds, returning the triple `(null, 0, null)`, while no block is owned at
all — so its triple does not point inside any owned block. -/
theorem c7_counterexample :
    (runTrace cfgT envT
        [{ data := fun _ => 0, dataSize := 0, code := fun _ => 0, codeSize := 0 }]).2 =
      [some { result := 0, resultSize := 0, resultCodeStart := 0 }] ∧
    ¬∃ i, inBlockIdx cfgT
        (runTrace cfgT envT
          [{ data := fun _ => 0, dataSize := 0, code := fun _ => 0, codeSize := 0 }]).1
        { result := 0, resultSize := 0, resultCodeStart := 0 } i := by
  constructor
  · decide
  · rintro ⟨i, bi, hget, -⟩
    have hblocks : (runTrace cfgT envT
        [{ data := fun _ => 0, dataSize := 0, code := fun _ => 0, codeSize := 0 }]).1.blocks =
        [] := by decide
    rw [hblocks] at hget
    simp at hget
